import Mathlib

/-!
# Verification of the localGPT ingestion and query pipeline

Shallow embedding of `src/constants.py`, `src/ingest.py`,
`src/prompt_template_utils.py` and `src/run_localGPT.py`.

Modelling conventions:
* Python strings are Lean `String`s; where character-level reasoning is
  needed we work on `List Char` (`String.toList`).
* `os.path.splitext` is embedded as `pySplitextExt` (extension component
  only, Python semantics: last dot of the basename, leading dots of the
  basename never start an extension).
* Python's builtin `round` on the quotient `len(paths) / n_workers` is
  embedded as exact rational rounding half-to-even (`pyRound`).  For the
  integer magnitudes that occur here the float division is exact enough
  that the two agree.
* Exceptions are embedded with `Except`: a raised Python exception is an
  `Except.error` value.  `range(a, b, 0)` raising `ValueError` and
  division by zero are explicit error constructors.
* External format parsers (the `DOCUMENT_MAP` loader classes) are a
  parameter `loader : String → Except String (List Document)` standing
  for `loader_class(file_path).load()`: it may fail (a parse error,
  carried as a message) or return the parsed record list.
* The two pool executors run loads concurrently, but `load_document_batch`
  collects `future.result()` in submission order, so the first failing
  file in list order is the exception that propagates; `as_completed` in
  `load_documents` merges batch outputs in completion order, which is a
  permutation of submission order.  We model the merge in submission
  order and only state facts that are invariant under permuting batches
  (lengths, counts, membership) or about the error case (an error is
  raised regardless of completion order).
-/

/-- A loaded document: `page_content` plus the `source` metadata field,
which is all the pipeline under verification reads
(`doc.metadata["source"]` in `split_documents`). -/
structure Document where
  page_content : String
  source : String
deriving DecidableEq, Repr

/-- Errors raised by the embedded ingestion pipeline. -/
inductive IngestError where
  /-- `ValueError("Document type is undefined")` from `load_single_document`. -/
  | undefinedDocType : IngestError
  /-- `IndexError` from `loader.load()[0]` on an empty record list. -/
  | indexError : IngestError
  /-- A failure of the external parser, with its message. -/
  | parseError : String → IngestError
  /-- `ZeroDivisionError` from `len(paths) / n_workers` with zero workers. -/
  | divisionByZero : IngestError
  /-- `ValueError("range() arg 3 must not be zero")` from
  `range(0, len(paths), chunksize)` with `chunksize = 0`. -/
  | rangeStepZero : IngestError
deriving DecidableEq, Repr

/-- Characters of a path after the last `/` (the basename). -/
def pyBasename (s : String) : List Char :=
  ((s.toList.reverse.takeWhile (fun c => c ≠ '/')).reverse)

/-- Extension of a (leading-dot-stripped) basename: the suffix starting at
the last `.`, or `[]` when there is no dot. -/
def extCore : List Char → List Char
  | [] => []
  | c :: cs =>
    match extCore cs with
    | [] => if c = '.' then c :: cs else []
    | e => e

/-- `os.path.splitext(p)[1]`: the extension of `p`.  Dots that lead the
basename do not start an extension (`.bashrc` has extension `""`). -/
def pySplitextExt (p : String) : String :=
  ((extCore ((pyBasename p).dropWhile (fun c => c = '.'))).asString)

/-- The keys of `DOCUMENT_MAP` in `src/constants.py`: the registered
document extensions (the values, loader classes, are abstracted into the
`loader` parameter of `load_single_document`). -/
def DOCUMENT_MAP_keys : List String :=
  [".txt", ".md", ".py", ".pdf", ".csv", ".xls", ".xlsx", ".docx", ".doc"]

/-- `load_single_document(file_path)`: dispatch on the extension; an
unregistered extension raises `ValueError`; otherwise the external loader
runs and the first record of `loader.load()` is returned —
`loader.load()[0]` raises `IndexError` on an empty record list. -/
def load_single_document (loader : String → Except String (List Document))
    (file_path : String) : Except IngestError Document :=
  if DOCUMENT_MAP_keys.contains (pySplitextExt file_path) then
    match loader file_path with
    | Except.error e => Except.error (IngestError.parseError e)
    | Except.ok [] => Except.error IngestError.indexError
    | Except.ok (d :: _) => Except.ok d
  else
    Except.error IngestError.undefinedDocType

/-- `load_document_batch(filepaths)`: each file is loaded on its own
thread; `[future.result() for future in futures]` collects the results in
submission order, so the first failing load (in list order) is the
exception that propagates out of the batch. -/
def load_document_batch (loader : String → Except String (List Document))
    (filepaths : List String) : Except IngestError (List Document × List String) := do
  let data_list ← filepaths.mapM (load_single_document loader)
  return (data_list, filepaths)

/-- Exact round-half-to-even of `num / den`, embedding Python's
`round(num / den)` (for `den = 0` the value is irrelevant: the pipeline
raises `ZeroDivisionError` before rounding). -/
def pyRound (num den : Nat) : Nat :=
  let q := num / den
  let r := num % den
  if 2 * r < den then q
  else if den < 2 * r then q + 1
  else if q % 2 = 0 then q else q + 1

/-- Structural worker for `chunksOf`: `fuel` bounds the number of slices
taken; `fuel = l.length` is always enough when `0 < k`. -/
def chunksOfAux (k : Nat) : Nat → List α → List (List α)
  | _, [] => []
  | 0, _ => []
  | fuel + 1, l => if k = 0 then [] else l.take k :: chunksOfAux k fuel (l.drop k)

/-- Contiguous slices of size `k`: `paths[i : i + chunksize]` for
`i = 0, k, 2k, …` as produced by `range(0, len(paths), chunksize)`.
Only ever invoked with `0 < k` (the `k = 0` guard mirrors Python raising
before any slice is taken, see `load_documents`). -/
def chunksOf (k : Nat) (l : List α) : List (List α) :=
  chunksOfAux k l.length l

/-- The eligible file list of `load_documents`: directory entries whose
extension is a `DOCUMENT_MAP` key, joined onto the source directory
(`os.path.join(source_dir, file_path)`). -/
def eligiblePaths (source_dir : String) (all_files : List String) : List String :=
  (all_files.filter (fun f => DOCUMENT_MAP_keys.contains (pySplitextExt f))).map
    (fun f => source_dir ++ "/" ++ f)

/-- `n_workers = min(INGEST_THREADS, max(len(paths), 1))`.
`INGEST_THREADS = os.cpu_count() or 8` is the parameter `ingest_threads`. -/
def nWorkers (ingest_threads : Nat) (paths : List String) : Nat :=
  min ingest_threads (max paths.length 1)

/-- `chunksize = round(len(paths) / n_workers)`. -/
def chunkSizeFor (ingest_threads : Nat) (paths : List String) : Nat :=
  pyRound paths.length (nWorkers ingest_threads paths)

/-- The batches submitted to the process pool: contiguous `chunksize`
slices of `paths` in original order. -/
def ingestBatches (ingest_threads : Nat) (paths : List String) : List (List String) :=
  chunksOf (chunkSizeFor ingest_threads paths) paths

/-- `load_documents(source_dir)`: filter eligible files, compute the worker
count and chunk size, slice the path list into batches, load every batch and
merge the results.  `n_workers = 0` would raise `ZeroDivisionError` at the
`round` call and `chunksize = 0` raises `ValueError` at `range(0, n, 0)`;
any batch failure propagates out of `future.result()` and aborts the run. -/
def load_documents (ingest_threads : Nat)
    (loader : String → Except String (List Document))
    (source_dir : String) (all_files : List String) :
    Except IngestError (List Document) := do
  let paths := eligiblePaths source_dir all_files
  if nWorkers ingest_threads paths = 0 then
    throw IngestError.divisionByZero
  else if chunkSizeFor ingest_threads paths = 0 then
    throw IngestError.rangeStepZero
  else do
    let results ← (ingestBatches ingest_threads paths).mapM (load_document_batch loader)
    return (results.map Prod.fst).flatten

/-- `split_documents(documents)`: route each document by the extension of
its `source` metadata — `.py` to `python_docs`, everything else to
`text_docs` — preserving order within each group. -/
def split_documents : List Document → List Document × List Document
  | [] => ([], [])
  | doc :: rest =>
    let (text_docs, python_docs) := split_documents rest
    if pySplitextExt doc.source = ".py" then
      (text_docs, doc :: python_docs)
    else
      (doc :: text_docs, python_docs)

/-- Configuration of a `RecursiveCharacterTextSplitter` as constructed in
`ingest.py`'s `main` (the numeric parameters and, for the Python splitter,
the language selection). -/
structure SplitterConfig where
  chunk_size : Nat
  chunk_overlap : Nat
  language : Option String
deriving DecidableEq, Repr

/-- `text_splitter = RecursiveCharacterTextSplitter(chunk_size=1000, chunk_overlap=200)`. -/
def text_splitter : SplitterConfig :=
  { chunk_size := 1000, chunk_overlap := 200, language := none }

/-- `python_splitter = RecursiveCharacterTextSplitter.from_language(language=Language.PYTHON, chunk_size=1000, chunk_overlap=200)`. -/
def python_splitter : SplitterConfig :=
  { chunk_size := 1000, chunk_overlap := 200, language := some "python" }

/-- `TEMPLATE` from `src/constants.py` (the default `system_prompt` of
`get_prompt_template`), byte for byte.  Note that it contains the
`{history}` placeholder itself. -/
def TEMPLATE : String :=
  "\n    You are a helpful systems engineer with 20 years of experience who answers questions\n    about systems engineering. You will be provided with relevant information in the form\n    of documents. Additional context for the question may be found in the chat history. Your\n    task is to write a clear, helpful, detailed, and factually accurate answer to the question\n    at the end using only the provided documents and chat history. If the documents do not\n    contain the information needed to answer the question, generate an answer regardless, but\n    include the string \"This answer contains information not present in the source documents.\"\n    at the end.\n\n    Documents: ###\n    {context}\n    ###\n\n    Chat History: ###\n    {history}\n    ###\n\n    Question: ###\n    {question}\n    ###\n\n    Helpful Answer:\n    "

/-- `B_INST` marker of the llama family. -/
def B_INST : String := "[INST]"

/-- `E_INST` marker of the llama family. -/
def E_INST : String := "[/INST]"

/-- `B_SYS` marker of the llama family. -/
def B_SYS : String := "<<SYS>>\n"

/-- `E_SYS` marker of the llama family. -/
def E_SYS : String := "\n<</SYS>>\n\n"

/-- The llama-family `instruction` string with history
(`prompt_template_utils.py` lines 20–31), byte for byte. -/
def llamaInstructionHist : String :=
  "\n            Documents: ###\n            {context}\n            ###\n\n            Chat History: ###\n            {history}\n            ###\n\n            Question: ###\n            {question}\n            ###"

/-- The llama-family `instruction` string without history (lines 36–49):
the Chat History content line is twelve spaces, and unlike the
with-history variant it ends with a `Helpful Answer:` cue. -/
def llamaInstructionNoHist : String :=
  "\n            Documents: ###\n            {context}\n            ###\n\n            Chat History: ###\n            \n            ###\n\n            Question: ###\n            {question}\n            ###\n\n            Helpful Answer:"

/-- The plain-family template tail with history (lines 57–71), appended to
`system_prompt`; its second line is four spaces. -/
def plainTailHist : String :=
  "\n    \n            Documents: ###\n            {context}\n            ###\n\n            Chat History: ###\n            {history}\n            ###\n\n            Question: ###\n            {question}\n            ###\n\n            Helpful Answer:"

/-- The plain-family template tail without history (lines 74–88), appended
to `system_prompt`; its second line is twelve spaces and the Chat History
content line is empty. -/
def plainTailNoHist : String :=
  "\n            \n            Documents: ###\n            {context}\n            ###\n\n            Chat History: ###\n\n            ###\n\n            Question: ###\n            {question}\n            ###\n\n            Helpful Answer:"

/-- A langchain `PromptTemplate`: its declared input variables and its
template string. -/
structure PromptTemplateData where
  input_variables : List String
  template : String
deriving DecidableEq, Repr

/-- A langchain `ConversationBufferMemory` configuration as built by
`get_prompt_template`. -/
structure ConversationBufferMemoryCfg where
  input_key : String
  memory_key : String
deriving DecidableEq, Repr

/-- `get_prompt_template(system_prompt, promptTemplate_type, history)`:
the llama family wraps the system prompt in `B_SYS`/`E_SYS` and the whole
prompt in `B_INST`/`E_INST`; any other `promptTemplate_type` (including
`None`) takes the plain `else` branch.  The returned memory always uses
input key `question` and memory key `history`. -/
def get_prompt_template (system_prompt : String)
    (promptTemplate_type : Option String) (history : Bool) :
    PromptTemplateData × ConversationBufferMemoryCfg :=
  let prompt :=
    if promptTemplate_type = some "llama" then
      let SYSTEM_PROMPT := B_SYS ++ system_prompt ++ E_SYS
      if history then
        { input_variables := ["history", "context", "question"],
          template := B_INST ++ SYSTEM_PROMPT ++ llamaInstructionHist ++ E_INST }
      else
        { input_variables := ["context", "question"],
          template := B_INST ++ SYSTEM_PROMPT ++ llamaInstructionNoHist ++ E_INST }
    else
      if history then
        { input_variables := ["history", "context", "question"],
          template := system_prompt ++ plainTailHist }
      else
        { input_variables := ["context", "question"],
          template := system_prompt ++ plainTailNoHist }
  (prompt, { input_key := "question", memory_key := "history" })

/-- `isPrefixOfC pat l` decides whether `pat` is a prefix of `l`. -/
def isPrefixOfC : List Char → List Char → Bool
  | [], _ => true
  | _ :: _, [] => false
  | a :: as, b :: bs => a = b && isPrefixOfC as bs

/-- `containsSub pat l` decides whether `pat` occurs as a contiguous
substring of `l`. -/
def containsSub (pat : List Char) : List Char → Bool
  | [] => pat.isEmpty
  | l@(_ :: rest) => isPrefixOfC pat l || containsSub pat rest

/-- `strContains s pat` decides whether `pat` occurs in the string `s`. -/
def strContains (s pat : String) : Bool :=
  containsSub pat.toList s.toList

/-- One question/answer turn of the conversation memory. -/
structure Turn where
  question : String
  answer : String
deriving DecidableEq, Repr

/-- Failure of the `qa(query)` chain call: the retrieval step or the
generation step raised. -/
inductive QAError where
  | retrievalError : QAError
  | generationError : QAError
deriving DecidableEq, Repr

/-- The interactive `while True` loop of `run_localGPT.py`'s `main`
(lines 315–335).  `inputs` is the stream of stdin lines; `memory` is the
`ConversationBufferMemory` turn list held by the chain, to which langchain
appends `(query, answer)` after a successful chain run.  `qa` is the
`RetrievalQA` chain call: it sees the current memory and the query and
either returns `(result, source_documents)` or raises.  The loop body has
no exception handler, so a raised `QAError` propagates out of the loop and
terminates the process; the model returns it as `Except.error` together
with the memory as it stood at the abort, which langchain has not updated
for the failed turn. -/
def interactive_loop
    (qa : List Turn → String → Except QAError (String × List Document)) :
    List String → List Turn → Except (QAError × List Turn) (List Turn)
  | [], memory => Except.ok memory
  | query :: rest, memory =>
    if query = "exit" then Except.ok memory
    else
      match qa memory query with
      | Except.error e => Except.error (e, memory)
      | Except.ok (answer, _docs) =>
        interactive_loop qa rest (memory ++ [⟨query, answer⟩])

/-- Split a character list at every occurrence of the boundary character
`s`; always returns at least one (possibly empty) piece, and no piece
contains `s`. -/
def splitOnChar (s : Char) : List Char → List (List Char)
  | [] => [[]]
  | c :: cs =>
    let r := splitOnChar s cs
    if c = s then [] :: r
    else (c :: r.headD []) :: r.tail

/-- Modelled from the spec: the repository delegates chunking to the
external langchain `RecursiveCharacterTextSplitter`, whose implementation
is not under `src/`; only its configuration (`chunk_size=1000,
chunk_overlap=200`) is.  Following §4.3, the splitter recursively prefers
the earlier boundary characters of `seps`: a text within the target size
is one chunk; an oversized text is split at the first boundary character
and each piece is split further with the remaining boundaries; a piece
that holds no remaining boundary is an indivisible unit and is kept whole
even when oversized, rather than truncated or corrupted. -/
def recursiveSplit (size : Nat) : List Char → List Char → List (List Char)
  | seps, text =>
    if text.length ≤ size then [text]
    else
      match seps with
      | [] => [text]
      | s :: rest => (splitOnChar s text).flatMap (fun piece => recursiveSplit size rest piece)

theorem splitOnChar_ne_nil (s : Char) (l : List Char) : splitOnChar s l ≠ [] := by
  cases l with
  | nil => simp [splitOnChar]
  | cons c cs =>
    simp only [splitOnChar]
    split <;> simp

theorem sep_not_mem_splitOnChar (s : Char) (l : List Char) :
    ∀ p ∈ splitOnChar s l, s ∉ p := by
  induction l with
  | nil =>
    intro p hp
    simp [splitOnChar] at hp
    simp [hp]
  | cons c cs ih =>
    intro p hp
    simp only [splitOnChar] at hp
    cases hr : splitOnChar s cs with
    | nil => exact absurd hr (splitOnChar_ne_nil s cs)
    | cons p0 ps =>
      rw [hr] at hp
      by_cases hcs : c = s
      · simp only [if_pos hcs, List.mem_cons] at hp
        rcases hp with h | h
        · simp [h]
        · exact ih p (hr ▸ List.mem_cons.mpr (by tauto))
      · simp only [if_neg hcs, List.headD_cons, List.tail_cons, List.mem_cons] at hp
        rcases hp with h | h
        · subst h
          intro hmem
          rcases List.mem_cons.mp hmem with h1 | h1
          · exact hcs h1.symm
          · exact ih p0 (hr ▸ List.mem_cons_self p0 ps) h1
        · exact ih p (hr ▸ List.mem_cons.mpr (Or.inr h))

theorem mem_of_mem_splitOnChar (s : Char) (l : List Char) :
    ∀ p ∈ splitOnChar s l, ∀ a ∈ p, a ∈ l := by
  induction l with
  | nil =>
    intro p hp
    simp [splitOnChar] at hp
    simp [hp]
  | cons c cs ih =>
    intro p hp a ha
    simp only [splitOnChar] at hp
    cases hr : splitOnChar s cs with
    | nil => exact absurd hr (splitOnChar_ne_nil s cs)
    | cons p0 ps =>
      rw [hr] at hp
      by_cases hcs : c = s
      · simp only [if_pos hcs, List.mem_cons] at hp
        rcases hp with h | h
        · simp [h] at ha
        · exact List.mem_cons.mpr
            (Or.inr (ih p (hr ▸ List.mem_cons.mpr (by tauto)) a ha))
      · simp only [if_neg hcs, List.headD_cons, List.tail_cons, List.mem_cons] at hp
        rcases hp with h | h
        · subst h
          rcases List.mem_cons.mp ha with h1 | h1
          · exact List.mem_cons.mpr (Or.inl h1)
          · exact List.mem_cons.mpr
              (Or.inr (ih p0 (hr ▸ List.mem_cons_self p0 ps) a h1))
        · exact List.mem_cons.mpr
            (Or.inr (ih p (hr ▸ List.mem_cons.mpr (Or.inr h)) a ha))

theorem not_mem_recursiveSplit (size : Nat) (seps : List Char) (x : Char) :
    ∀ text : List Char, x ∉ text →
      ∀ c ∈ recursiveSplit size seps text, x ∉ c := by
  induction seps with
  | nil =>
    intro text hx c hc
    rw [recursiveSplit] at hc
    split at hc <;> simp at hc <;> exact hc ▸ hx
  | cons s rest ih =>
    intro text hx c hc
    rw [recursiveSplit] at hc
    split at hc
    · simp at hc
      exact hc ▸ hx
    · simp only [List.mem_flatMap] at hc
      obtain ⟨piece, hpiece, hcp⟩ := hc
      refine ih piece (fun hmem => hx ?_) c hcp
      exact mem_of_mem_splitOnChar s text piece hpiece x hmem

theorem recursiveSplit_chunk_bound (size : Nat) (seps : List Char) :
    ∀ text : List Char, ∀ c ∈ recursiveSplit size seps text,
      c.length ≤ size ∨ (size < c.length ∧ ∀ s ∈ seps, s ∉ c) := by
  induction seps with
  | nil =>
    intro text c hc
    rw [recursiveSplit] at hc
    split at hc
    · simp at hc
      subst hc
      left
      assumption
    · simp at hc
      subst hc
      rcases Nat.lt_or_ge size c.length with h | h
      · right
        exact ⟨h, by simp⟩
      · left
        exact h
  | cons s rest ih =>
    intro text c hc
    rw [recursiveSplit] at hc
    split at hc
    · simp at hc
      subst hc
      left
      assumption
    · simp only [List.mem_flatMap] at hc
      obtain ⟨piece, hpiece, hcp⟩ := hc
      rcases ih piece c hcp with h | ⟨h1, h2⟩
      · left
        exact h
      · right
        refine ⟨h1, fun t ht => ?_⟩
        rcases List.mem_cons.mp ht with h3 | h3
        · subst h3
          exact not_mem_recursiveSplit size rest t piece
            (sep_not_mem_splitOnChar t text piece hpiece) c hcp
        · exact h2 t h3

theorem chunksOfAux_succ_cons (k fuel : Nat) (a : α) (as : List α) :
    chunksOfAux k (fuel + 1) (a :: as) =
      if k = 0 then [] else (a :: as).take k :: chunksOfAux k fuel ((a :: as).drop k) := rfl

theorem chunksOfAux_flatten (k : Nat) (hk : 0 < k) :
    ∀ fuel : Nat, ∀ l : List α, l.length ≤ fuel →
      (chunksOfAux k fuel l).flatten = l := by
  intro fuel
  induction fuel with
  | zero =>
    intro l hl
    rw [List.length_eq_zero.mp (Nat.le_zero.mp hl)]
    rfl
  | succ fuel ih =>
    intro l hl
    cases l with
    | nil => rfl
    | cons a as =>
      simp only [List.length_cons] at hl
      rw [chunksOfAux_succ_cons, if_neg (Nat.pos_iff_ne_zero.mp hk)]
      rw [List.flatten_cons, ih ((a :: as).drop k) (by simp; omega)]
      exact List.take_append_drop k (a :: as)

theorem chunksOfAux_mem_length (k : Nat) (hk : 0 < k) :
    ∀ fuel : Nat, ∀ l : List α, l.length ≤ fuel →
      ∀ b ∈ chunksOfAux k fuel l, 0 < b.length ∧ b.length ≤ k := by
  intro fuel
  induction fuel with
  | zero =>
    intro l hl b hb
    rw [List.length_eq_zero.mp (Nat.le_zero.mp hl)] at hb
    simp [chunksOfAux] at hb
  | succ fuel ih =>
    intro l hl b hb
    cases l with
    | nil => simp [chunksOfAux] at hb
    | cons a as =>
      simp only [List.length_cons] at hl
      rw [chunksOfAux_succ_cons, if_neg (Nat.pos_iff_ne_zero.mp hk)] at hb
      rcases List.mem_cons.mp hb with h | h
      · subst h
        simp
        omega
      · exact ih ((a :: as).drop k) (by simp; omega) b h

theorem chunksOfAux_dropLast (k : Nat) (hk : 0 < k) :
    ∀ fuel : Nat, ∀ l : List α, l.length ≤ fuel →
      ∀ b ∈ (chunksOfAux k fuel l).dropLast, b.length = k := by
  intro fuel
  induction fuel with
  | zero =>
    intro l hl b hb
    rw [List.length_eq_zero.mp (Nat.le_zero.mp hl)] at hb
    simp [chunksOfAux] at hb
  | succ fuel ih =>
    intro l hl b hb
    cases l with
    | nil => simp [chunksOfAux] at hb
    | cons a as =>
      simp only [List.length_cons] at hl
      rw [chunksOfAux_succ_cons, if_neg (Nat.pos_iff_ne_zero.mp hk)] at hb
      cases hrest : chunksOfAux k fuel ((a :: as).drop k) with
      | nil =>
        rw [hrest] at hb
        simp at hb
      | cons r0 rs =>
        rw [hrest] at hb
        rw [List.dropLast_cons₂] at hb
        rcases List.mem_cons.mp hb with h | h
        · subst h
          have hlong : k < (a :: as).length := by
            by_contra hcon
            push_neg at hcon
            have : (a :: as).drop k = [] := List.drop_eq_nil_of_le hcon
            rw [this] at hrest
            cases fuel <;> simp [chunksOfAux] at hrest
          simp only [List.length_cons] at hlong
          simp
          omega
        · exact ih ((a :: as).drop k) (by simp; omega) b (hrest ▸ h)

theorem chunksOfAux_length (k : Nat) (hk : 0 < k) :
    ∀ fuel : Nat, ∀ l : List α, l.length ≤ fuel →
      (chunksOfAux k fuel l).length = (l.length + k - 1) / k := by
  have h0 : (k - 1) / k = 0 := Nat.div_eq_of_lt (by omega)
  intro fuel
  induction fuel with
  | zero =>
    intro l hl
    rw [List.length_eq_zero.mp (Nat.le_zero.mp hl)]
    simp [chunksOfAux, h0]
  | succ fuel ih =>
    intro l hl
    cases l with
    | nil => simp [chunksOfAux, h0]
    | cons a as =>
      simp only [List.length_cons] at hl
      rw [chunksOfAux_succ_cons, if_neg (Nat.pos_iff_ne_zero.mp hk)]
      rw [List.length_cons, ih ((a :: as).drop k) (by simp; omega)]
      simp only [List.length_drop, List.length_cons]
      rcases Nat.lt_or_ge (as.length + 1) k with hsmall | hbig
      · have h1 : as.length + 1 - k = 0 := by omega
        rw [h1]
        have h2 : (0 + k - 1) / k = 0 := Nat.div_eq_of_lt (by omega)
        have h3 : (as.length + 1 + k - 1) / k = 1 := by
          have hle : k ≤ as.length + 1 + k - 1 := by omega
          rw [Nat.div_eq_sub_div hk hle, Nat.div_eq_of_lt (by omega)]
        rw [h2, h3]
      · have h1 : as.length + 1 + k - 1 = (as.length + 1 - k + k - 1) + k := by omega
        rw [h1, Nat.add_div_right _ hk]

theorem chunksOf_flatten (k : Nat) (hk : 0 < k) (l : List α) :
    (chunksOf k l).flatten = l :=
  chunksOfAux_flatten k hk l.length l (Nat.le_refl _)

theorem chunksOf_mem_length (k : Nat) (hk : 0 < k) (l : List α) :
    ∀ b ∈ chunksOf k l, 0 < b.length ∧ b.length ≤ k :=
  chunksOfAux_mem_length k hk l.length l (Nat.le_refl _)

theorem chunksOf_dropLast (k : Nat) (hk : 0 < k) (l : List α) :
    ∀ b ∈ (chunksOf k l).dropLast, b.length = k :=
  chunksOfAux_dropLast k hk l.length l (Nat.le_refl _)

theorem chunksOf_length (k : Nat) (hk : 0 < k) (l : List α) :
    (chunksOf k l).length = (l.length + k - 1) / k :=
  chunksOfAux_length k hk l.length l (Nat.le_refl _)

theorem pyRound_pos (num den : Nat) (hden : 0 < den) (hnd : den ≤ num) :
    0 < pyRound num den := by
  have hq : 0 < num / den := Nat.div_pos hnd hden
  simp only [pyRound]
  split
  · exact hq
  · split
    · omega
    · split <;> omega

theorem mapM_ok_of_forall {ε α β : Type} (f : α → Except ε β) (g : α → β) :
    ∀ l : List α, (∀ a ∈ l, f a = Except.ok (g a)) →
      l.mapM f = Except.ok (l.map g) := by
  intro l
  induction l with
  | nil => intro _; rfl
  | cons a as ih =>
    intro h
    rw [List.mapM_cons, h a (List.mem_cons_self a as),
      ih (fun x hx => h x (List.mem_cons.mpr (Or.inr hx)))]
    rfl

theorem mapM_error_of_exists {ε α β : Type} (f : α → Except ε β) :
    ∀ l : List α, (∃ a ∈ l, ∀ b, f a ≠ Except.ok b) →
      ∃ e, l.mapM f = Except.error e := by
  intro l
  induction l with
  | nil =>
    intro h
    simp at h
  | cons a as ih =>
    intro h
    rw [List.mapM_cons]
    obtain ⟨x, hx, hfail⟩ := h
    cases hfa : f a with
    | error e => exact ⟨e, rfl⟩
    | ok b =>
      rcases List.mem_cons.mp hx with hxa | hxas
      · exact absurd hfa (hxa ▸ hfail b)
      · obtain ⟨e, he⟩ := ih ⟨x, hxas, hfail⟩
        rw [he]
        exact ⟨e, rfl⟩

theorem nWorkers_bounds (T : Nat) (paths : List String) (hT : 1 ≤ T)
    (hne : paths ≠ []) :
    nWorkers T paths = min T paths.length ∧
      1 ≤ nWorkers T paths ∧ nWorkers T paths ≤ paths.length := by
  have hn : 1 ≤ paths.length := List.length_pos.mpr hne
  unfold nWorkers
  omega

theorem chunkSizeFor_pos (T : Nat) (paths : List String) (hT : 1 ≤ T)
    (hne : paths ≠ []) : 0 < chunkSizeFor T paths := by
  obtain ⟨-, h1, h2⟩ := nWorkers_bounds T paths hT hne
  exact pyRound_pos _ _ h1 h2

theorem load_document_batch_ok (loader : String → Except String (List Document))
    (g : String → Document) (b : List String)
    (hok : ∀ p ∈ b, load_single_document loader p = Except.ok (g p)) :
    load_document_batch loader b = Except.ok (b.map g, b) := by
  unfold load_document_batch
  rw [mapM_ok_of_forall (load_single_document loader) g b hok]
  rfl

theorem load_documents_ok_char (T : Nat)
    (loader : String → Except String (List Document))
    (source_dir : String) (all_files : List String) (g : String → Document)
    (hT : 1 ≤ T) (hne : eligiblePaths source_dir all_files ≠ [])
    (hok : ∀ p ∈ eligiblePaths source_dir all_files,
      load_single_document loader p = Except.ok (g p)) :
    load_documents T loader source_dir all_files =
      Except.ok ((eligiblePaths source_dir all_files).map g) := by
  obtain ⟨-, hW1, -⟩ := nWorkers_bounds T _ hT hne
  have hcs := chunkSizeFor_pos T _ hT hne
  have hflat : (ingestBatches T (eligiblePaths source_dir all_files)).flatten =
      eligiblePaths source_dir all_files := chunksOf_flatten _ hcs _
  have hbatch : ∀ b ∈ ingestBatches T (eligiblePaths source_dir all_files),
      load_document_batch loader b = Except.ok (b.map g, b) := by
    intro b hb
    refine load_document_batch_ok loader g b (fun p hp => hok p ?_)
    rw [← hflat]
    exact List.mem_flatten.mpr ⟨b, hb, hp⟩
  have hm : (ingestBatches T (eligiblePaths source_dir all_files)).mapM
      (load_document_batch loader) =
      Except.ok ((ingestBatches T (eligiblePaths source_dir all_files)).map
        (fun b => (b.map g, b))) :=
    mapM_ok_of_forall _ _ _ hbatch
  unfold load_documents
  rw [if_neg (by omega), if_neg (by omega)]
  rw [hm]
  show Except.ok _ = _
  rw [List.map_map]
  have : (Prod.fst ∘ fun b : List String => (b.map g, b)) = fun b => b.map g := rfl
  rw [this, ← List.map_flatten, hflat]

theorem load_documents_error_of_file_error (T : Nat)
    (loader : String → Except String (List Document))
    (source_dir : String) (all_files : List String) (p : String)
    (e : IngestError) (hT : 1 ≤ T)
    (hp : p ∈ eligiblePaths source_dir all_files)
    (he : load_single_document loader p = Except.error e) :
    ∃ err, load_documents T loader source_dir all_files = Except.error err := by
  have hne : eligiblePaths source_dir all_files ≠ [] := by
    intro hcon
    rw [hcon] at hp
    exact List.not_mem_nil p hp
  obtain ⟨-, hW1, -⟩ := nWorkers_bounds T _ hT hne
  have hcs := chunkSizeFor_pos T _ hT hne
  have hflat : (ingestBatches T (eligiblePaths source_dir all_files)).flatten =
      eligiblePaths source_dir all_files := chunksOf_flatten _ hcs _
  obtain ⟨b, hb, hpb⟩ := List.mem_flatten.mp (hflat ▸ hp)
  obtain ⟨eb, heb⟩ := mapM_error_of_exists (load_single_document loader) b
    ⟨p, hpb, fun v hv => by rw [he] at hv; exact Except.noConfusion hv⟩
  have hbatcherr : load_document_batch loader b = Except.error eb := by
    unfold load_document_batch
    rw [heb]
    rfl
  obtain ⟨e2, he2⟩ := mapM_error_of_exists (load_document_batch loader)
    (ingestBatches T (eligiblePaths source_dir all_files))
    ⟨b, hb, fun r hr => by rw [hbatcherr] at hr; exact Except.noConfusion hr⟩
  refine ⟨e2, ?_⟩
  unfold load_documents
  rw [if_neg (by omega), if_neg (by omega)]
  rw [he2]
  rfl

theorem load_documents_empty_eligible (T : Nat)
    (loader : String → Except String (List Document))
    (source_dir : String) (all_files : List String) (hT : 1 ≤ T)
    (hel : eligiblePaths source_dir all_files = []) :
    load_documents T loader source_dir all_files =
      Except.error IngestError.rangeStepZero := by
  have hW : nWorkers T (eligiblePaths source_dir all_files) = 1 := by
    rw [hel]
    unfold nWorkers
    simp
    omega
  have hcs : chunkSizeFor T (eligiblePaths source_dir all_files) = 0 := by
    unfold chunkSizeFor
    rw [hW, hel]
    rfl
  unfold load_documents
  rw [if_neg (by rw [hW]; omega), if_pos hcs]
  rfl

/-- C1 counterexample: `load_documents` has no failures component, and a
single failing file does not merely fail that file: the exception from
`future.result()` aborts the whole run.  With two eligible files where
only `d/a.txt` fails to parse, the run returns the parse error and the
sibling `d/b.txt` contributes nothing — there is no `(documents, failures)`
partition of the eligible files. -/
theorem c1_counterexample :
    load_documents 8
      (fun p => if p = "d/a.txt" then Except.error "boom"
        else Except.ok [{ page_content := "t", source := p }])
      "d" ["a.txt", "b.txt"] =
      Except.error (IngestError.parseError "boom") := rfl

/-- C1 (amended): `load_documents` returns only a document list, with no
failures component.  When every eligible file loads successfully it
returns exactly one document per eligible file, in order (so
`|documents| = |eligible files|`); when any eligible file fails to load,
the whole run raises instead of recording a per-file error, so sibling
files are not returned. -/
theorem c1_load_documents_partition (T : Nat)
    (loader : String → Except String (List Document))
    (source_dir : String) (all_files : List String) (g : String → Document)
    (hT : 1 ≤ T) (hne : eligiblePaths source_dir all_files ≠ []) :
    ((∀ p ∈ eligiblePaths source_dir all_files,
        load_single_document loader p = Except.ok (g p)) →
      load_documents T loader source_dir all_files =
        Except.ok ((eligiblePaths source_dir all_files).map g) ∧
      ((eligiblePaths source_dir all_files).map g).length =
        (eligiblePaths source_dir all_files).length) ∧
    (∀ p ∈ eligiblePaths source_dir all_files, ∀ e,
      load_single_document loader p = Except.error e →
      ∃ err, load_documents T loader source_dir all_files = Except.error err) := by
  constructor
  · intro hok
    exact ⟨load_documents_ok_char T loader source_dir all_files g hT hne hok,
      List.length_map _ _⟩
  · intro p hp e he
    exact load_documents_error_of_file_error T loader source_dir all_files p e hT hp he

/-- C1 witness: a concrete two-file run in which every eligible file loads
successfully, yielding one document per eligible file. -/
theorem c1_load_documents_partition_witness :
    load_documents 8
      (fun p => Except.ok [{ page_content := "t", source := p }])
      "d" ["a.txt", "b.txt"] =
      Except.ok ((eligiblePaths "d" ["a.txt", "b.txt"]).map
        (fun p => { page_content := "t", source := p })) ∧
    ((eligiblePaths "d" ["a.txt", "b.txt"]).map
      (fun p => ({ page_content := "t", source := p } : Document))).length =
      (eligiblePaths "d" ["a.txt", "b.txt"]).length :=
  (c1_load_documents_partition 8
    (fun p => Except.ok [{ page_content := "t", source := p }])
    "d" ["a.txt", "b.txt"] (fun p => { page_content := "t", source := p })
    (by omega) (by decide)).1 (by
      intro p hp
      have hel : eligiblePaths "d" ["a.txt", "b.txt"] = ["d/a.txt", "d/b.txt"] := rfl
      rw [hel] at hp
      fin_cases hp <;> rfl)

/-- C2: ingesting an empty directory does not return an empty result: the
eligible list is empty, `n_workers = min(T, max(0, 1)) = 1`,
`chunksize = round(0 / 1) = 0`, and `range(0, 0, 0)` raises
`ValueError("range() arg 3 must not be zero")` — the run fails instead of
completing. -/
theorem c2_empty_directory_raises (T : Nat)
    (loader : String → Except String (List Document))
    (source_dir : String) (hT : 1 ≤ T) :
    load_documents T loader source_dir [] =
      Except.error IngestError.rangeStepZero :=
  load_documents_empty_eligible T loader source_dir [] hT rfl

/-- C2 witness: the failure at a concrete ingestion of an empty directory. -/
theorem c2_empty_directory_raises_witness :
    load_documents 8 (fun _ => Except.ok []) "source" [] =
      Except.error IngestError.rangeStepZero :=
  c2_empty_directory_raises 8 (fun _ => Except.ok []) "source" (by omega)

/-- C3 counterexample: the query loop has no exception handler, so a
failing turn does not leave the loop running.  With a `qa` chain that
fails on `q1` and would succeed on any other query, the session
`["q1", "q2"]` aborts at `q1` with the error: the loop never returns to
await `q2`, contradicting the claim that the loop continues to
`AwaitingQuery` and accepts the next query. -/
theorem c3_counterexample :
    interactive_loop
      (fun _ q => if q = "q1" then Except.error QAError.retrievalError
        else Except.ok ("answer", []))
      ["q1", "q2"] [] =
      Except.error (QAError.retrievalError, []) := rfl

/-- C3 (amended): when the retrieval/generation chain call fails on a
non-exit query, the exception propagates out of the interactive loop and
terminates it (the process exits); conversation memory is not updated for
the failed turn — but the loop does not continue to accept further
queries. -/
theorem c3_turn_failure_aborts_loop
    (qa : List Turn → String → Except QAError (String × List Document))
    (query : String) (rest : List String) (memory : List Turn) (e : QAError)
    (hq : query ≠ "exit") (he : qa memory query = Except.error e) :
    interactive_loop qa (query :: rest) memory = Except.error (e, memory) := by
  unfold interactive_loop
  rw [if_neg hq, he]

/-- C3 witness: a concrete turn whose generation fails with non-empty
memory; the loop aborts with that error and the memory untouched. -/
theorem c3_turn_failure_aborts_loop_witness :
    interactive_loop (fun _ _ => Except.error QAError.generationError)
      ["how", "next"] [{ question := "hi", answer := "hello" }] =
      Except.error (QAError.generationError,
        [{ question := "hi", answer := "hello" }]) :=
  c3_turn_failure_aborts_loop (fun _ _ => Except.error QAError.generationError)
    "how" ["next"] [{ question := "hi", answer := "hello" }]
    QAError.generationError (by decide) rfl

/-- C4 counterexample: ingesting a directory holding exactly one `.zip`
file does not return `(documents = [], failures = [UnsupportedFormatError])`:
the file is filtered out during enumeration without any failure record,
the eligible list is empty, and the run raises the `range()`-step-zero
`ValueError` instead of returning at all. -/
theorem c4_counterexample :
    load_documents 8 (fun _ => Except.ok []) "d" ["x.zip"] =
      Except.error IngestError.rangeStepZero := rfl

/-- C4 (amended): a file whose extension is not registered is silently
excluded from the eligible list during enumeration — no per-file failure
entry exists anywhere in `load_documents` — and with exactly one such
file the eligible list is empty, so the run raises the
`range()`-step-zero `ValueError` rather than returning an empty result.
The unsupported-format `ValueError("Document type is undefined")` is
raised only when `load_single_document` is called directly on such a
path, a call directory ingestion never makes. -/
theorem c4_unsupported_extension_skipped (T : Nat)
    (loader : String → Except String (List Document))
    (source_dir name : String) (hT : 1 ≤ T)
    (hx : DOCUMENT_MAP_keys.contains (pySplitextExt name) = false) :
    eligiblePaths source_dir [name] = [] ∧
    load_documents T loader source_dir [name] =
      Except.error IngestError.rangeStepZero ∧
    load_single_document loader name =
      Except.error IngestError.undefinedDocType := by
  have hel : eligiblePaths source_dir [name] = [] := by
    unfold eligiblePaths
    rw [List.filter_cons, hx]
    rfl
  refine ⟨hel, load_documents_empty_eligible T loader source_dir [name] hT hel, ?_⟩
  unfold load_single_document
  rw [if_neg (by rw [hx]; exact Bool.false_ne_true)]

/-- C4 witness: the concrete `.zip` scenario from the spec. -/
theorem c4_unsupported_extension_skipped_witness :
    eligiblePaths "d" ["x.zip"] = [] ∧
    load_documents 8 (fun _ => Except.ok []) "d" ["x.zip"] =
      Except.error IngestError.rangeStepZero ∧
    load_single_document (fun _ => Except.ok []) "x.zip" =
      Except.error IngestError.undefinedDocType :=
  c4_unsupported_extension_skipped 8 (fun _ => Except.ok []) "d" "x.zip"
    (by omega) (by decide)

/-- C5 counterexample: with five eligible files and two configured workers
the claim demands `W = 2` chunks of size `ceil(5/2) = 3`; the code instead
computes `chunksize = round(5/2) = 2` (Python rounds half to even) and
slices the list into three chunks of sizes 2, 2, 1 — more chunks than
workers and none of the claimed size. -/
theorem c5_counterexample :
    nWorkers 2 (eligiblePaths "d" ["a.txt", "b.txt", "c.txt", "d.txt", "e.txt"]) = 2 ∧
    ingestBatches 2 (eligiblePaths "d" ["a.txt", "b.txt", "c.txt", "d.txt", "e.txt"]) =
      [["d/a.txt", "d/b.txt"], ["d/c.txt", "d/d.txt"], ["d/e.txt"]] :=
  ⟨rfl, rfl⟩

/-- C5 (amended): for a non-empty eligible list of length `n` the worker
count satisfies the claimed formula `W = max(1, min(max_workers, n))`, but
the partition differs from the claim: the slice width is
`chunksize = round(n / W)` with Python round-half-to-even (not
`ceil(n/W)`), the list is cut into `ceil(n / chunksize)` contiguous
order-preserving slices (possibly more than `W`), every slice is non-empty
with length at most `chunksize`, and every slice except possibly the last
has length exactly `chunksize`. -/
theorem c5_worker_and_partition (T : Nat) (source_dir : String)
    (all_files : List String) (hT : 1 ≤ T)
    (hne : eligiblePaths source_dir all_files ≠ []) :
    nWorkers T (eligiblePaths source_dir all_files) =
      max 1 (min T (eligiblePaths source_dir all_files).length) ∧
    1 ≤ chunkSizeFor T (eligiblePaths source_dir all_files) ∧
    (ingestBatches T (eligiblePaths source_dir all_files)).flatten =
      eligiblePaths source_dir all_files ∧
    (∀ b ∈ ingestBatches T (eligiblePaths source_dir all_files),
      0 < b.length ∧
        b.length ≤ chunkSizeFor T (eligiblePaths source_dir all_files)) ∧
    (∀ b ∈ (ingestBatches T (eligiblePaths source_dir all_files)).dropLast,
      b.length = chunkSizeFor T (eligiblePaths source_dir all_files)) ∧
    (ingestBatches T (eligiblePaths source_dir all_files)).length =
      ((eligiblePaths source_dir all_files).length +
        chunkSizeFor T (eligiblePaths source_dir all_files) - 1) /
        chunkSizeFor T (eligiblePaths source_dir all_files) := by
  obtain ⟨hWeq, hW1, hWn⟩ := nWorkers_bounds T _ hT hne
  have hcs := chunkSizeFor_pos T _ hT hne
  refine ⟨?_, hcs, chunksOf_flatten _ hcs _, chunksOf_mem_length _ hcs _,
    chunksOf_dropLast _ hcs _, chunksOf_length _ hcs _⟩
  rw [hWeq]
  rw [hWeq] at hW1
  omega

/-- C5 witness: eight configured workers and three eligible files. -/
theorem c5_worker_and_partition_witness :
    nWorkers 8 (eligiblePaths "d" ["a.txt", "b.txt", "c.txt"]) =
      max 1 (min 8 (eligiblePaths "d" ["a.txt", "b.txt", "c.txt"]).length) ∧
    1 ≤ chunkSizeFor 8 (eligiblePaths "d" ["a.txt", "b.txt", "c.txt"]) ∧
    (ingestBatches 8 (eligiblePaths "d" ["a.txt", "b.txt", "c.txt"])).flatten =
      eligiblePaths "d" ["a.txt", "b.txt", "c.txt"] ∧
    (ingestBatches 8 (eligiblePaths "d" ["a.txt", "b.txt", "c.txt"])).length =
      ((eligiblePaths "d" ["a.txt", "b.txt", "c.txt"]).length +
        chunkSizeFor 8 (eligiblePaths "d" ["a.txt", "b.txt", "c.txt"]) - 1) /
        chunkSizeFor 8 (eligiblePaths "d" ["a.txt", "b.txt", "c.txt"]) := by
  have h := c5_worker_and_partition 8 "d" ["a.txt", "b.txt", "c.txt"]
    (by omega) (by decide)
  exact ⟨h.1, h.2.1, h.2.2.1, h.2.2.2.2.2⟩

set_option maxRecDepth 8000 in
/-- C6 counterexample: with the default system prompt and the llama
template kind, the `history = false` composed template still contains the
`{history}` placeholder (the default system prompt `TEMPLATE` carries one),
and its shape is not the `history = true` template with the history
emptied: the `history = false` llama variant ends with a `Helpful Answer:`
cue directly before the closing `[/INST]` marker, while the
`history = true` llama variant closes the instruction right after the
Question section (no such cue anywhere before its `[/INST]`). -/
theorem c6_counterexample :
    strContains (get_prompt_template TEMPLATE (some "llama") false).1.template
      "{history}" = true ∧
    strContains (get_prompt_template TEMPLATE (some "llama") false).1.template
      "Helpful Answer:[/INST]" = true ∧
    strContains (get_prompt_template TEMPLATE (some "llama") true).1.template
      "Helpful Answer:[/INST]" = false := by
  refine ⟨?_, ?_, ?_⟩ <;> decide

set_option maxRecDepth 8000 in
/-- C6 (amended): for every template kind, the `history = false` prompt
declares only `context` and `question` as input variables, its composed
template still shows the `Chat History: ###` section markers, and the
instruction part appended by `get_prompt_template` contains no `{history}`
placeholder — but the composed template is not placeholder-free (the
default system prompt itself contributes a `{history}`), and the
`history = false` shape differs from the `history = true` shape beyond the
emptied history content (the llama no-history instruction carries a
`Helpful Answer:` cue absent from the llama with-history instruction). -/
theorem c6_history_disabled (kind : Option String) :
    (get_prompt_template TEMPLATE kind false).1.input_variables =
      ["context", "question"] ∧
    strContains (get_prompt_template TEMPLATE kind false).1.template
      "Chat History: ###" = true ∧
    strContains (get_prompt_template TEMPLATE kind false).1.template
      "{history}" = true ∧
    strContains llamaInstructionNoHist "{history}" = false ∧
    strContains plainTailNoHist "{history}" = false ∧
    strContains llamaInstructionNoHist "Helpful Answer:" = true ∧
    strContains llamaInstructionHist "Helpful Answer:" = false := by
  by_cases h : kind = some "llama"
  · subst h
    refine ⟨rfl, ?_, ?_, ?_, ?_, ?_, ?_⟩ <;> decide
  · have hpl : (get_prompt_template TEMPLATE kind false).1 =
        { input_variables := ["context", "question"],
          template := TEMPLATE ++ plainTailNoHist } := by
      unfold get_prompt_template
      rw [if_neg h]
      rfl
    rw [hpl]
    refine ⟨rfl, ?_, ?_, ?_, ?_, ?_, ?_⟩ <;> decide

theorem split_documents_eq (documents : List Document) :
    split_documents documents =
      (documents.filter (fun d => !(pySplitextExt d.source == ".py")),
       documents.filter (fun d => pySplitextExt d.source == ".py")) := by
  induction documents with
  | nil => rfl
  | cons d rest ih =>
    simp only [split_documents, ih, List.filter_cons]
    by_cases h : pySplitextExt d.source = ".py"
    · simp [h]
    · simp [h]

theorem split_documents_length (documents : List Document) :
    (split_documents documents).1.length + (split_documents documents).2.length =
      documents.length := by
  induction documents with
  | nil => rfl
  | cons d rest ih =>
    rcases hsp : split_documents rest with ⟨t, p⟩
    rw [hsp] at ih
    simp only [split_documents, hsp]
    by_cases h : pySplitextExt d.source = ".py"
    · simp only [h, if_pos]
      simp at ih ⊢
      omega
    · simp only [h, if_neg]
      simp at ih ⊢
      omega

/-- C7: `split_documents` routes exactly the documents whose source
extension is `.py` to the python group and all others to the text group —
so every document lands in exactly one group and the two group sizes sum
to the input size — and `main` configures both splitters with chunk size
1000 and overlap 200. -/
theorem c7_split_routing (documents : List Document) :
    (split_documents documents).1 =
      documents.filter (fun d => !(pySplitextExt d.source == ".py")) ∧
    (split_documents documents).2 =
      documents.filter (fun d => pySplitextExt d.source == ".py") ∧
    (split_documents documents).1.length + (split_documents documents).2.length =
      documents.length ∧
    text_splitter.chunk_size = 1000 ∧ python_splitter.chunk_size = 1000 ∧
    text_splitter.chunk_overlap = 200 ∧ python_splitter.chunk_overlap = 200 := by
  refine ⟨?_, ?_, split_documents_length documents, rfl, rfl, rfl, rfl⟩
  · rw [split_documents_eq documents]
  · rw [split_documents_eq documents]

/-- C8 (spec-modelled): every chunk produced by the recursive splitter at
the configured target size (1000, `text_splitter.chunk_size`) has length
at most the target, except when the chunk is an indivisible unit — it
contains none of the splitting boundary characters — that is itself
larger than the target, in which case it is kept whole. -/
theorem c8_chunk_size_bound (seps : List Char) (text : List Char)
    (c : List Char)
    (hc : c ∈ recursiveSplit text_splitter.chunk_size seps text) :
    c.length ≤ text_splitter.chunk_size ∨
      (text_splitter.chunk_size < c.length ∧ ∀ s ∈ seps, s ∉ c) :=
  recursiveSplit_chunk_bound text_splitter.chunk_size seps text c hc

set_option maxRecDepth 8000 in
/-- C8 witness: a two-character text under newline splitting is one chunk
within the 1000-character target. -/
theorem c8_chunk_size_bound_witness :
    ('a' :: ['b']) ∈
      recursiveSplit text_splitter.chunk_size ['\n'] ("ab".toList) ∧
    (('a' :: ['b']).length ≤ text_splitter.chunk_size ∨
      (text_splitter.chunk_size < ('a' :: ['b']).length ∧
        ∀ s ∈ ['\n'], s ∉ ('a' :: ['b']))) :=
  ⟨by decide, c8_chunk_size_bound ['\n'] ("ab".toList) ('a' :: ['b']) (by decide)⟩

/-- C9: any template kind other than `some "llama"` — `none` or any other
string — takes the `else` branch of `get_prompt_template` and yields the
plain family (system prompt followed by the Documents / Chat History /
Question sections), not an error. -/
theorem c9_unrecognized_kind_falls_back_plain (kind : Option String)
    (hk : kind ≠ some "llama") (system_prompt : String) (history : Bool) :
    get_prompt_template system_prompt kind history =
      (if history then
        { input_variables := ["history", "context", "question"],
          template := system_prompt ++ plainTailHist }
       else
        { input_variables := ["context", "question"],
          template := system_prompt ++ plainTailNoHist },
       { input_key := "question", memory_key := "history" }) := by
  unfold get_prompt_template
  rw [if_neg hk]

/-- C9 witness: the default `None` kind with the default system prompt
composes the plain no-history template. -/
theorem c9_unrecognized_kind_falls_back_plain_witness :
    get_prompt_template TEMPLATE none false =
      ({ input_variables := ["context", "question"],
         template := TEMPLATE ++ plainTailNoHist },
       { input_key := "question", memory_key := "history" }) :=
  c9_unrecognized_kind_falls_back_plain none
    (fun hcon => Option.noConfusion hcon) TEMPLATE false

/-- C10: for a registered extension, `load_single_document` returns
exactly the first record the external parser produces, discarding the
rest; when the parser produces zero records the `loader.load()[0]`
indexing fails (`IndexError`) instead of returning an empty document. -/
theorem c10_first_record_only (loader : String → Except String (List Document))
    (file_path : String)
    (hreg : DOCUMENT_MAP_keys.contains (pySplitextExt file_path) = true) :
    (∀ d rest, loader file_path = Except.ok (d :: rest) →
      load_single_document loader file_path = Except.ok d) ∧
    (loader file_path = Except.ok [] →
      load_single_document loader file_path =
        Except.error IngestError.indexError) := by
  constructor
  · intro d rest h
    unfold load_single_document
    rw [if_pos hreg, h]
  · intro h
    unfold load_single_document
    rw [if_pos hreg, h]

/-- C10 witness: a two-record parse keeps only the first record; an
empty parse fails with the index error. -/
theorem c10_first_record_only_witness :
    load_single_document
      (fun _ => Except.ok [{ page_content := "body", source := "a.txt" },
        { page_content := "extra", source := "a.txt" }]) "a.txt" =
      Except.ok { page_content := "body", source := "a.txt" } ∧
    load_single_document (fun _ => Except.ok ([] : List Document)) "a.txt" =
      Except.error IngestError.indexError :=
  ⟨(c10_first_record_only
      (fun _ => Except.ok [{ page_content := "body", source := "a.txt" },
        { page_content := "extra", source := "a.txt" }]) "a.txt" (by decide)).1
      _ _ rfl,
   (c10_first_record_only (fun _ => Except.ok ([] : List Document)) "a.txt"
      (by decide)).2 rfl⟩
